import Mathlib

/-!
Shallow embedding of the core runtime of the natural-speech backend:
the job tracker (backend/job_tracker.py), the token-bucket rate limiter
(backend/rate_limiter.py), the background worker pool
(backend/background_tasks.py), the two-tier TTL cache
(backend/cache_manager.py) and the periodic cleanup scheduler
(backend/cleanup_scheduler.py), together with theorems about them.

Conventions:
* Timestamps are natural numbers (seconds since the epoch).  The code
  stores `datetime.utcnow().isoformat()` strings and compares them
  lexicographically in SQL; for a fixed ISO-8601 format that order agrees
  with chronological order, so `Nat` comparison is faithful.
* Python floats for token counts and progress are modelled as `ℚ`; every
  value the claims exercise is exactly representable, so no rounding is lost.
* `threading.Lock` is not re-entrant.  A method body that runs inside
  `with self.lock` and calls another method that also takes `self.lock`
  blocks forever; we model the outcome of a call as a `PyResult` that is
  either a normal return, a permanent block, or a raised `AttributeError`.
-/

namespace NaturalSpeech

/-- Job status enumeration (`job_tracker.py`, `class JobStatus`). -/
inductive JobStatus
  | pending
  | processing
  | completed
  | failed
  | cancelled
deriving DecidableEq, Repr

/-- One row of the `jobs` table (`job_tracker.py`, `_init_db`).
`progress` has SQL default 0.0; the optional columns default to NULL. -/
structure Job where
  job_id : String
  status : JobStatus
  created_at : Nat
  updated_at : Nat
  started_at : Option Nat := none
  completed_at : Option Nat := none
  progress : ℚ := 0
  error_message : Option String := none
  result_path : Option String := none
deriving DecidableEq, Repr

/-- Outcome of calling a `JobTracker` method from a thread: a normal
return, blocking forever on an already-held non-reentrant lock, or a
raised `AttributeError`. -/
inductive PyResult (α : Type)
  | ok (a : α)
  | blocked
  | attributeError
deriving DecidableEq, Repr

/-- `JobTracker.get_job` (lines 113-128): runs `SELECT * FROM jobs WHERE
job_id = ?` and returns the row, or `None` when absent.  The body is
wrapped in `with self.lock`; `lockHeld` records whether the calling
thread already holds that lock, in which case the acquire blocks
forever. -/
def get_job (lockHeld : Bool) (jobs : List Job) (job_id : String) :
    PyResult (Option Job) :=
  if lockHeld then .blocked
  else .ok (jobs.find? fun j => decide (j.job_id = job_id))

/-- The `UPDATE jobs SET ...` built dynamically by `update_job_status`
applied to one matching row: `status` and `updated_at` are always set;
`started_at` is set when the PROCESSING first-transition branch fired
(`set_started`); `completed_at` is set when the new status is COMPLETED
or FAILED (line 91 — CANCELLED is not in that list); `progress`,
`error_message` and `result_path` are set exactly when supplied, with no
validation or clamping. -/
def applyUpdates (j : Job) (status : JobStatus) (now : Nat)
    (set_started : Bool) (progress : Option ℚ)
    (error_message result_path : Option String) : Job :=
  { j with
    status := status
    updated_at := now
    started_at := if set_started then some now else j.started_at
    completed_at :=
      if status = .completed ∨ status = .failed then some now else j.completed_at
    progress :=
      match progress with
      | some p => p
      | none => j.progress
    error_message :=
      match error_message with
      | some e => some e
      | none => j.error_message
    result_path :=
      match result_path with
      | some r => some r
      | none => j.result_path }

/-- Executing the built UPDATE against the whole table: every row whose
`job_id` matches is rewritten; a missing id matches no row and the
statement is a no-op. -/
def runUpdate (jobs : List Job) (job_id : String) (status : JobStatus)
    (now : Nat) (set_started : Bool) (progress : Option ℚ)
    (error_message result_path : Option String) : List Job :=
  jobs.map fun j =>
    if j.job_id = job_id then
      applyUpdates j status now set_started progress error_message result_path
    else j

/-- Core of `JobTracker.update_job_status` (lines 68-111).  The method
body runs inside `with self.lock`.  When the new status is PROCESSING it
evaluates `self.get_job(job_id).get("started_at")` (line 87);
`innerLockHeld` is the lock state that nested `get_job` call observes:
`true` for the real non-reentrant `threading.Lock`.  When `get_job`
returns `None` (id absent), `None.get("started_at")` raises
`AttributeError`. -/
def update_job_status_core (innerLockHeld : Bool) (jobs : List Job)
    (job_id : String) (status : JobStatus) (now : Nat)
    (progress : Option ℚ) (error_message result_path : Option String) :
    PyResult (List Job) :=
  if status = .processing then
    match get_job innerLockHeld jobs job_id with
    | .blocked => .blocked
    | .attributeError => .attributeError
    | .ok none => .attributeError
    | .ok (some j) =>
        .ok (runUpdate jobs job_id status now j.started_at.isNone
          progress error_message result_path)
  else
    .ok (runUpdate jobs job_id status now false progress error_message result_path)

/-- `JobTracker.update_job_status` as written: the nested `get_job` on
the PROCESSING path re-acquires the already-held non-reentrant lock. -/
def update_job_status (jobs : List Job) (job_id : String)
    (status : JobStatus) (now : Nat) (progress : Option ℚ)
    (error_message result_path : Option String) : PyResult (List Job) :=
  update_job_status_core true jobs job_id status now progress
    error_message result_path

/-- Counterfactual variant of `update_job_status` in which `self.lock`
is re-entrant, so the nested `get_job` proceeds instead of blocking. -/
def update_job_status_reentrant (jobs : List Job) (job_id : String)
    (status : JobStatus) (now : Nat) (progress : Option ℚ)
    (error_message result_path : Option String) : PyResult (List Job) :=
  update_job_status_core false jobs job_id status now progress
    error_message result_path

/-- A concrete pending job, used to evaluate the model on concrete
inputs. -/
def jobA : Job :=
  { job_id := "job-a", status := .pending, created_at := 100, updated_at := 100 }

/-- C1: every `update_job_status` call with status PROCESSING blocks
forever — the method holds the non-reentrant `self.lock` and the nested
`get_job` tries to acquire it again; and were the lock re-entrant, an id
absent from the store would make `self.get_job(job_id).get("started_at")`
raise `AttributeError` instead of updating. -/
theorem C1_update_processing_deadlocks (jobs : List Job) (job_id : String)
    (now : Nat) (p : Option ℚ) (e r : Option String) :
    update_job_status jobs job_id .processing now p e r = .blocked ∧
    ((jobs.find? fun j => decide (j.job_id = job_id)) = none →
      update_job_status_reentrant jobs job_id .processing now p e r =
        .attributeError) := by
  constructor
  · simp [update_job_status, update_job_status_core, get_job]
  · intro h
    simp [update_job_status_reentrant, update_job_status_core, get_job, h]

/-- Witness for C1 at a concrete input: the empty store and id "job-1". -/
theorem C1_update_processing_deadlocks_witness :
    update_job_status [] "job-1" .processing 0 none none none = .blocked ∧
    update_job_status_reentrant [] "job-1" .processing 0 none none none =
      .attributeError := by
  obtain ⟨h1, h2⟩ := C1_update_processing_deadlocks [] "job-1" 0 none none none
  exact ⟨h1, h2 rfl⟩

/-- C2 counterexample: transitioning a pending job to CANCELLED — a
terminal status — does not set `completed_at`: line 91 of
`job_tracker.py` tests membership in `[COMPLETED, FAILED]` only, so the
updated row still has `completed_at = NULL`. -/
theorem C2_counterexample :
    update_job_status [jobA] "job-a" .cancelled 200 none none none =
      .ok [{ jobA with status := .cancelled, updated_at := 200 }] ∧
    ({ jobA with status := .cancelled, updated_at := 200 } : Job).completed_at
      = none := by
  constructor
  · simp [update_job_status, update_job_status_core, runUpdate, applyUpdates, jobA]
  · rfl

/-- C2 amended: on every non-PROCESSING update (the PROCESSING path
never returns, see C1), `completed_at` is set to the update time exactly
when the new status is COMPLETED or FAILED — a CANCELLED transition
leaves it unset — and `started_at` is never touched. -/
theorem C2_completed_at_iff_completed_or_failed (jobs : List Job)
    (job_id : String) (st : JobStatus) (now : Nat) (p : Option ℚ)
    (e r : Option String) (hst : st ≠ .processing) (j : Job)
    (hmem : j ∈ jobs) (hid : j.job_id = job_id) (hc : j.completed_at = none) :
    ∃ jobs2, update_job_status jobs job_id st now p e r = .ok jobs2 ∧
      applyUpdates j st now false p e r ∈ jobs2 ∧
      ((applyUpdates j st now false p e r).completed_at = some now ↔
        (st = .completed ∨ st = .failed)) ∧
      (applyUpdates j st now false p e r).started_at = j.started_at := by
  refine ⟨runUpdate jobs job_id st now false p e r, ?_, ?_, ?_, ?_⟩
  · simp [update_job_status, update_job_status_core, hst]
  · have hmm := List.mem_map_of_mem (fun x : Job =>
      if x.job_id = job_id then applyUpdates x st now false p e r else x) hmem
    simpa [runUpdate, hid] using hmm
  · by_cases h : st = .completed ∨ st = .failed
    · simp [applyUpdates, h]
    · simp [applyUpdates, h, hc]
  · simp [applyUpdates]

/-- Witness for C2's amended theorem: cancelling the concrete pending
job `jobA` stores a row whose `completed_at` is still unset. -/
theorem C2_completed_at_iff_completed_or_failed_witness :
    ∃ jobs2, update_job_status [jobA] "job-a" .cancelled 200 none none none =
        .ok jobs2 ∧
      applyUpdates jobA .cancelled 200 false none none none ∈ jobs2 ∧
      ((applyUpdates jobA .cancelled 200 false none none none).completed_at =
          some 200 ↔
        (JobStatus.cancelled = .completed ∨ JobStatus.cancelled = .failed)) ∧
      (applyUpdates jobA .cancelled 200 false none none none).started_at =
        jobA.started_at :=
  C2_completed_at_iff_completed_or_failed [jobA] "job-a" .cancelled 200
    none none none (by decide) jobA (by simp) rfl rfl

/-- C7 counterexample: `update_job_status` with progress 1.5 stores 1.5 —
lines 95-97 of `job_tracker.py` append the supplied value to the UPDATE
with no clamping — so an out-of-range progress is stored, contrary to the
claim that no out-of-range value is ever stored. -/
theorem C7_counterexample :
    update_job_status [jobA] "job-a" .completed 200 (some (3 / 2)) none none =
      .ok [{ jobA with status := .completed,
                       updated_at := 200,
                       completed_at := some 200,
                       progress := 3 / 2 }] ∧
    ¬ ((3 / 2 : ℚ) ≤ 1) := by
  constructor
  · simp [update_job_status, update_job_status_core, runUpdate, applyUpdates, jobA]
  · norm_num

/-- C7 amended: a supplied progress value is stored verbatim — the call
is indeed not rejected, but there is no clamping and no validation, so
out-of-range values are stored unchanged (shown for every non-PROCESSING
status; the PROCESSING path never returns, see C1). -/
theorem C7_progress_stored_verbatim (jobs : List Job) (job_id : String)
    (st : JobStatus) (now : Nat) (p : ℚ) (e r : Option String)
    (hst : st ≠ .processing) (j : Job) (hmem : j ∈ jobs)
    (hid : j.job_id = job_id) :
    ∃ jobs2, update_job_status jobs job_id st now (some p) e r = .ok jobs2 ∧
      applyUpdates j st now false (some p) e r ∈ jobs2 ∧
      (applyUpdates j st now false (some p) e r).progress = p := by
  refine ⟨runUpdate jobs job_id st now false (some p) e r, ?_, ?_, ?_⟩
  · simp [update_job_status, update_job_status_core, hst]
  · have hmm := List.mem_map_of_mem (fun x : Job =>
      if x.job_id = job_id then applyUpdates x st now false (some p) e r else x)
      hmem
    simpa [runUpdate, hid] using hmm
  · simp [applyUpdates]

/-- Witness for C7's amended theorem: updating `jobA` with progress 1.5
stores exactly 1.5. -/
theorem C7_progress_stored_verbatim_witness :
    ∃ jobs2,
      update_job_status [jobA] "job-a" .completed 200 (some (3 / 2)) none none =
        .ok jobs2 ∧
      applyUpdates jobA .completed 200 false (some (3 / 2)) none none ∈ jobs2 ∧
      (applyUpdates jobA .completed 200 false (some (3 / 2)) none none).progress
        = 3 / 2 :=
  C7_progress_stored_verbatim [jobA] "job-a" .completed 200 (3 / 2) none none
    (by decide) jobA (by simp) rfl

/-- C8 counterexample: on an id absent from the store,
`update_job_status` with status PROCESSING does not return at all — it
blocks forever on the non-reentrant lock — contradicting the claim that
the call returns as a benign no-op for every status. -/
theorem C8_counterexample :
    update_job_status [] "missing" .processing 0 none none none = .blocked := by
  simp [update_job_status, update_job_status_core, get_job]

/-- C8 amended: on an id absent from the store, `update_job_status` with
any status other than PROCESSING returns normally and changes no stored
job (the UPDATE matches no row); with PROCESSING the call never returns —
it self-deadlocks on the lock — and were the lock re-entrant it would
raise AttributeError rather than report not-found. -/
theorem C8_missing_id_noop (jobs : List Job) (job_id : String)
    (st : JobStatus) (now : Nat) (p : Option ℚ) (e r : Option String)
    (habs : (jobs.find? fun j => decide (j.job_id = job_id)) = none) :
    (st ≠ .processing → update_job_status jobs job_id st now p e r = .ok jobs) ∧
    update_job_status jobs job_id .processing now p e r = .blocked ∧
    update_job_status_reentrant jobs job_id .processing now p e r =
      .attributeError := by
  have hall : ∀ j ∈ jobs, ¬ (j.job_id = job_id) := by
    intro j hj
    have h := List.find?_eq_none.mp habs j hj
    simpa using h
  refine ⟨?_, ?_, ?_⟩
  · intro hst
    have hru : runUpdate jobs job_id st now false p e r = jobs := by
      unfold runUpdate
      have key : ∀ l : List Job, (∀ j ∈ l, ¬ (j.job_id = job_id)) →
          (l.map fun j => if j.job_id = job_id then
            applyUpdates j st now false p e r else j) = l := by
        intro l
        induction l with
        | nil => intro _; rfl
        | cons a t ih =>
            intro h
            rw [List.map_cons, if_neg (h a (by simp)),
              ih fun x hx => h x (by simp [hx])]
      exact key jobs hall
    simp [update_job_status, update_job_status_core, hst, hru]
  · simp [update_job_status, update_job_status_core, get_job]
  · simp [update_job_status_reentrant, update_job_status_core, get_job, habs]

/-- Witness for C8's amended theorem at the empty store and id
"missing". -/
theorem C8_missing_id_noop_witness :
    update_job_status [] "missing" .cancelled 0 none none none = .ok [] ∧
    update_job_status_reentrant [] "missing" .processing 0 none none none =
      .attributeError := by
  obtain ⟨h1, _, h3⟩ :=
    C8_missing_id_noop [] "missing" .cancelled 0 none none none rfl
  exact ⟨h1 (by decide), by
    obtain ⟨_, _, h3'⟩ :=
      C8_missing_id_noop [] "missing" .processing 0 none none none rfl
    exact h3'⟩

/-- ORDER BY created_at DESC, as a relation on rows (`get_jobs`). -/
def createdDesc (a b : Job) : Prop := b.created_at ≤ a.created_at

instance : DecidableRel createdDesc := fun a b =>
  inferInstanceAs (Decidable (b.created_at ≤ a.created_at))

/-- The optional WHERE status = ? filter of `get_jobs`. -/
def statusFilter (jobs : List Job) (status : Option JobStatus) : List Job :=
  match status with
  | some s => jobs.filter fun j => decide (j.status = s)
  | none => jobs

/-- `JobTracker.get_jobs` (lines 130-158): SELECT with an optional
status filter, ordered by created_at descending, limited to `limit`
rows. -/
def get_jobs (jobs : List Job) (status : Option JobStatus) (limit : Nat) :
    List Job :=
  (List.insertionSort createdDesc (statusFilter jobs status)).take limit

/-- Length of one day in seconds. -/
def secondsPerDay : Nat := 86400

/-- The cutoff computed by `cleanup_old_jobs` (lines 162-166):
`utcnow()` truncated to midnight — `replace(hour=0, minute=0, second=0,
microsecond=0)` — minus `days` days.  As an integer it can be negative
for large `days`, hence `ℤ`. -/
def cleanupCutoff (now days : Nat) : Int :=
  ((now / secondsPerDay) * secondsPerDay : Nat) - (days : Int) * (secondsPerDay : Nat)

/-- `JobTracker.cleanup_old_jobs` (lines 160-179): DELETE FROM jobs
WHERE created_at < cutoff; returns the surviving table and the
rowcount. -/
def cleanup_old_jobs (jobs : List Job) (now days : Nat) : List Job × Nat :=
  let kept := jobs.filter fun j =>
    !decide ((j.created_at : Int) < cleanupCutoff now days)
  (kept, jobs.length - kept.length)

/-- A concrete job created on day 3 at 00:10 UTC, used for C6. -/
def jobOld : Job :=
  { job_id := "job-old", status := .pending, created_at := 259800,
    updated_at := 259800 }

/-- C6 counterexample: sweeping at 00:30 UTC on day 10 (now = 865800 s)
with 7-day retention, the job created on day 3 at 00:10 (259800 s) is
older than now minus 7 days (261000 s), yet it survives the sweep and
still appears in the listing: the code deletes only rows created before
midnight-of-today minus 7 days (259200 s). -/
theorem C6_counterexample :
    (259800 : Nat) < 865800 - 7 * 86400 ∧
    (cleanup_old_jobs [jobOld] 865800 7).1 = [jobOld] ∧
    jobOld ∈ get_jobs (cleanup_old_jobs [jobOld] 865800 7).1 none 100 := by
  have hc : ¬ ((jobOld.created_at : Int) < cleanupCutoff 865800 7) := by
    norm_num [jobOld, cleanupCutoff, secondsPerDay]
  have h1 : (cleanup_old_jobs [jobOld] 865800 7).1 = [jobOld] := by
    simp [cleanup_old_jobs, hc]
  refine ⟨by norm_num, h1, ?_⟩
  rw [h1]
  have h2 : get_jobs [jobOld] none 100 = [jobOld] := by
    rw [get_jobs]
    have hsort : List.insertionSort createdDesc (statusFilter [jobOld] none) =
        [jobOld] := by
      simp [statusFilter, List.insertionSort, List.orderedInsert]
    rw [hsort, List.take_of_length_le (by simp)]
  rw [h2]
  exact List.mem_singleton.mpr rfl

/-- C6 amended: one sweep deletes exactly the jobs created before
midnight-of-the-sweep-day minus N days (so some jobs older than N days
survive for up to a day); deleted jobs are absent from the surviving
table, hence from every listing drawn from it, and a job created at the
sweep instant survives. -/
theorem C6_cleanup_cutoff (jobs : List Job) (now days : Nat) (j : Job) :
    (j ∈ (cleanup_old_jobs jobs now days).1 ↔
      j ∈ jobs ∧ ¬ ((j.created_at : Int) < cleanupCutoff now days)) ∧
    (∀ st limit, j ∈ get_jobs (cleanup_old_jobs jobs now days).1 st limit →
      j ∈ (cleanup_old_jobs jobs now days).1) ∧
    (j.created_at = now → j ∈ jobs → j ∈ (cleanup_old_jobs jobs now days).1) := by
  have hcut : cleanupCutoff now days ≤ (now : Int) := by
    have h1 : ((now / secondsPerDay * secondsPerDay : Nat) : Int) ≤ (now : Int) := by
      exact_mod_cast Nat.div_mul_le_self now secondsPerDay
    have h2 : (0 : Int) ≤ (days : Int) * (secondsPerDay : Nat) := by positivity
    unfold cleanupCutoff
    omega
  refine ⟨?_, ?_, ?_⟩
  · simp [cleanup_old_jobs, List.mem_filter]
  · intro st limit hmem
    rw [get_jobs] at hmem
    have hsub := List.take_subset limit _ hmem
    have hrows := (List.mem_insertionSort createdDesc).mp hsub
    cases st with
    | none => exact hrows
    | some s =>
        simp only [statusFilter] at hrows
        exact List.mem_of_mem_filter hrows
  · intro hc hmemj
    have : ¬ ((j.created_at : Int) < cleanupCutoff now days) := by
      rw [hc]
      exact not_lt.mpr hcut
    simp [cleanup_old_jobs, List.mem_filter, hmemj, this]

/-- Witness for C6's amended theorem: a job created at the sweep instant
survives the sweep. -/
theorem C6_cleanup_cutoff_witness :
    jobA ∈ (cleanup_old_jobs [jobA] 100 0).1 :=
  (C6_cleanup_cutoff [jobA] 100 0 jobA).2.2 rfl (by simp)

/-- Assignment `m[k] = v` on a Python dict modelled as an association
list: replace the entry for `k` when present, otherwise append it. -/
def alistSet {β : Type} : List (String × β) → String → β → List (String × β)
  | [], k, v => [(k, v)]
  | (k0, v0) :: rest, k, v =>
      if k0 = k then (k, v) :: rest else (k0, v0) :: alistSet rest k v

/-- `del m[k]` on a Python dict modelled as an association list. -/
def alistErase {β : Type} : List (String × β) → String → List (String × β)
  | [], _ => []
  | (k0, v0) :: rest, k =>
      if k0 = k then alistErase rest k else (k0, v0) :: alistErase rest k

/-- Python dict lookup `m[k]` / `k in m` on an association list. -/
def alistGet {β : Type} : List (String × β) → String → Option β
  | [], _ => none
  | (k0, v0) :: rest, k => if k0 = k then some v0 else alistGet rest k

/-- Token-bucket rate limiter state (`rate_limiter.py`, lines 12-20):
`buckets` maps a client id to `(tokens, last_update)`.  Token counts and
clock readings are Python floats, modelled as ℚ (every value the claims
exercise is exactly representable). -/
structure RateLimiter where
  requests_per_minute : ℚ
  tokens_per_second : ℚ
  burst_size : ℚ
  buckets : List (String × ℚ × ℚ)
deriving DecidableEq, Repr

/-- `RateLimiter.__init__`: `tokens_per_second = requests_per_minute / 60.0`
and `burst_size = burst_size or requests_per_minute`. -/
def RateLimiter.make (requests_per_minute : ℚ) (burst : Option ℚ) :
    RateLimiter :=
  { requests_per_minute := requests_per_minute
    tokens_per_second := requests_per_minute / 60
    burst_size := burst.getD requests_per_minute
    buckets := [] }

/-- `RateLimiter.is_allowed` (lines 30-55), with the client id already
extracted from the request.  A first-time client gets a bucket holding
the full `burst_size` and is admitted — without a token being consumed.
Otherwise tokens refill by `elapsed * tokens_per_second`, capped at
`burst_size`; a call with at least 1.0 token consumes one and is
admitted, else the call is rejected.  Returns the decision and the
updated limiter. -/
def is_allowed (rl : RateLimiter) (client_id : String) (now : ℚ) :
    Bool × RateLimiter :=
  match alistGet rl.buckets client_id with
  | none =>
      (true,
       { rl with buckets := alistSet rl.buckets client_id (rl.burst_size, now) })
  | some (tokens0, last_update) =>
      let tokens :=
        min rl.burst_size (tokens0 + (now - last_update) * rl.tokens_per_second)
      if tokens ≥ 1 then
        (true,
         { rl with buckets := alistSet rl.buckets client_id (tokens - 1, now) })
      else
        (false,
         { rl with buckets := alistSet rl.buckets client_id (tokens, now) })

/-- One `is_allowed` call per entry of `times` (the clock reading at each
call), collecting the decisions in order. -/
def allowRun (rl : RateLimiter) (client_id : String) :
    List ℚ → List Bool × RateLimiter
  | [] => ([], rl)
  | t :: ts =>
      let step := is_allowed rl client_id t
      let rest := allowRun step.2 client_id ts
      (step.1 :: rest.1, rest.2)

/-- C3 counterexample: with `requests_per_minute = 60`, `burst_size = 10`
and no time elapsing, the eleventh call to is_allowed for one client
still returns true — the bucket-creating first call is admitted without
consuming a token — contradicting the claim that the eleventh call
returns false. -/
theorem C3_counterexample :
    (allowRun (RateLimiter.make 60 (some 10)) "client"
      [0, 0, 0, 0, 0, 0, 0, 0, 0, 0, 0]).1 =
      [true, true, true, true, true, true, true, true, true, true, true] := by
  norm_num [allowRun, is_allowed, RateLimiter.make, alistGet, alistSet, min_def]

/-- C3 amended: with `requests_per_minute = 60` and `burst_size = 10`,
the first eleven immediate calls for one client all return true — the
first call creates a full bucket and is admitted without consuming a
token — the twelfth immediate call returns false, and one second later a
further call returns true (refill of 1 token per second). -/
theorem C3_eleven_immediate_then_refill :
    (allowRun (RateLimiter.make 60 (some 10)) "client"
      [0, 0, 0, 0, 0, 0, 0, 0, 0, 0, 0, 0, 1]).1 =
      [true, true, true, true, true, true, true, true, true, true, true,
       false, true] := by
  norm_num [allowRun, is_allowed, RateLimiter.make, alistGet, alistSet, min_def]

/-- Worker-pool state (`background_tasks.py`, `BackgroundTaskManager`):
`task_queue` holds the queued job ids (the other fields of a task dict
play no role here). -/
structure BackgroundTaskManager where
  max_workers : Nat
  active_workers : Nat
  task_queue : List String
deriving DecidableEq, Repr

/-- `_process_queue` (lines 74-94): under the worker lock, return when
all workers are busy or the queue is empty; otherwise pop the queue
head, increment `active_workers` and start a worker thread for that
task.  Returns the updated state and the job id started, if any. -/
def process_queue (p : BackgroundTaskManager) :
    BackgroundTaskManager × Option String :=
  if p.max_workers ≤ p.active_workers then (p, none)
  else
    match p.task_queue with
    | [] => (p, none)
    | t :: rest =>
        ({ p with task_queue := rest, active_workers := p.active_workers + 1 },
         some t)

/-- `submit_avatar_job` (lines 36-72): append the task to the queue,
then run the dispatch check. -/
def submit (p : BackgroundTaskManager) (job_id : String) :
    BackgroundTaskManager × Option String :=
  process_queue { p with task_queue := p.task_queue ++ [job_id] }

/-- Tail of `_worker` (lines 179-183): in its `finally` block a
finishing worker decrements `active_workers` exactly once and re-runs
`_process_queue` (a finish event presupposes a running worker, so
`active_workers > 0` when it fires). -/
def worker_finish (p : BackgroundTaskManager) :
    BackgroundTaskManager × Option String :=
  process_queue { p with active_workers := p.active_workers - 1 }

/-- The wait loop of `shutdown` (lines 203-205).  `shutdown` sets no
flag, so a worker finishing during the wait still re-runs
`_process_queue` and can start queued jobs; `finishes` counts the
workers that finish during the wait.  Returns the state after the wait
and the job ids started during it, in order. -/
def shutdown_wait : Nat → BackgroundTaskManager →
    BackgroundTaskManager × List String
  | 0, p => (p, [])
  | n + 1, p =>
      let w := worker_finish p
      let rest := shutdown_wait n w.1
      (rest.1, w.2.toList ++ rest.2)

/-- `shutdown` (lines 200-219): after the wait, every task still queued
is transitioned to CANCELLED with error message "Service shutdown" and
the queue is cleared; the return value of the method is the count of
those tasks.  Result: (final state, ids started during the wait,
returned cancelled count, ids cancelled). -/
def shutdown (p : BackgroundTaskManager) (finishes : Nat) :
    BackgroundTaskManager × List String × Nat × List String :=
  let w := shutdown_wait finishes p
  ({ w.1 with task_queue := [] }, w.2, w.1.task_queue.length, w.1.task_queue)

/-- C4 counterexample: a pool with `max_workers = 1`, one active worker
and "job-2" queued.  Shutdown is called; the active worker finishes
during the wait and its dispatch check starts "job-2" — a job that was
still in the queue when Shutdown was called — so shutdown does not stop
admission, and the returned cancelled count is 0 although "job-2" had
never started when Shutdown was called. -/
theorem C4_counterexample :
    (shutdown ⟨1, 1, ["job-2"]⟩ 1).2.1 = ["job-2"] ∧
    (shutdown ⟨1, 1, ["job-2"]⟩ 1).2.2.1 = 0 := by
  constructor <;> rfl

/-- Helper for C4: during the wait phase the queue only shrinks from the
front — the started ids are an initial segment of the queue at shutdown
time, and the remaining queue is the corresponding suffix. -/
theorem shutdown_wait_take_drop (finishes : Nat) :
    ∀ p : BackgroundTaskManager, ∃ m,
      (shutdown_wait finishes p).2 = p.task_queue.take m ∧
      (shutdown_wait finishes p).1.task_queue = p.task_queue.drop m := by
  induction finishes with
  | zero => intro p; exact ⟨0, rfl, rfl⟩
  | succ n ih =>
      intro p
      by_cases hfull :
          p.max_workers ≤ ({ p with active_workers := p.active_workers - 1 } :
            BackgroundTaskManager).active_workers
      · obtain ⟨m, hs, hq⟩ := ih { p with active_workers := p.active_workers - 1 }
        refine ⟨m, ?_, ?_⟩
        · simp [shutdown_wait, worker_finish, process_queue, hfull, hs]
        · simp [shutdown_wait, worker_finish, process_queue, hfull, hq]
      · cases htq : p.task_queue with
        | nil =>
            obtain ⟨m, hs, hq⟩ :=
              ih { p with active_workers := p.active_workers - 1 }
            refine ⟨m, ?_, ?_⟩
            · simp [shutdown_wait, worker_finish, process_queue, hfull, htq,
                hs, htq ▸ hs]
            · simp [shutdown_wait, worker_finish, process_queue, hfull, htq,
                htq ▸ hq]
        | cons t rest =>
            obtain ⟨m, hs, hq⟩ :=
              ih { p with task_queue := rest,
                          active_workers := p.active_workers - 1 + 1 }
            refine ⟨m + 1, ?_, ?_⟩
            · simp [shutdown_wait, worker_finish, process_queue, hfull, htq,
                hs]
            · simp [shutdown_wait, worker_finish, process_queue, hfull, htq,
                hq]

/-- A CANCELLED update never takes the PROCESSING branch of
`update_job_status`, so it always returns normally with the UPDATE
applied. -/
theorem update_cancelled_ok (jobs : List Job) (job_id : String) (now : Nat)
    (p : Option ℚ) (e r : Option String) :
    update_job_status jobs job_id .cancelled now p e r =
      .ok (runUpdate jobs job_id .cancelled now false p e r) := rfl

/-- The cancellation pass of `shutdown` (lines 208-217): each job id
still queued is transitioned to CANCELLED with error message
"Service shutdown"; each such update returns normally
(`update_cancelled_ok`), so the pass is the fold of the resulting
UPDATEs over the store. -/
def cancel_all (now : Nat) : List String → List Job → List Job
  | [], jobs => jobs
  | id :: ids, jobs =>
      cancel_all now ids
        (runUpdate jobs id .cancelled now false none (some "Service shutdown")
          none)

/-- The UPDATE of `update_job_status` never rewrites a row's key. -/
theorem applyUpdates_job_id (j : Job) (st : JobStatus) (now : Nat)
    (sb : Bool) (p : Option ℚ) (e r : Option String) :
    (applyUpdates j st now sb p e r).job_id = j.job_id := rfl

/-- Membership in an executed UPDATE: every resulting row comes from a
row of the input table, rewritten when its key matched. -/
theorem mem_runUpdate {jobs : List Job} {job_id : String} {st : JobStatus}
    {now : Nat} {sb : Bool} {p : Option ℚ} {e r : Option String} {j : Job}
    (h : j ∈ runUpdate jobs job_id st now sb p e r) :
    ∃ x ∈ jobs,
      j = if x.job_id = job_id then applyUpdates x st now sb p e r else x := by
  obtain ⟨x, hx, hfx⟩ := List.mem_map.mp h
  exact ⟨x, hx, hfx.symm⟩

/-- A job whose id is not among the cancelled ids passes through the
cancellation pass untouched as a member of the store. -/
theorem cancel_all_mem_of_unaffected (now : Nat) :
    ∀ (ids : List String) (jobs : List Job) (j : Job),
      j ∈ cancel_all now ids jobs → j.job_id ∉ ids → j ∈ jobs := by
  intro ids
  induction ids with
  | nil => intro jobs j h _; exact h
  | cons id rest ih =>
      intro jobs j h hnot
      have hrest : j.job_id ∉ rest := fun hr => hnot (by simp [hr])
      have hid : j.job_id ≠ id := fun he => hnot (by simp [he])
      have h2 := ih _ j h hrest
      obtain ⟨x, hx, hfx⟩ := mem_runUpdate h2
      by_cases hxid : x.job_id = id
      · exfalso
        apply hid
        rw [hfx, if_pos hxid, applyUpdates_job_id, hxid]
      · rwa [hfx, if_neg hxid]

/-- After the cancellation pass, every stored job whose id was among the
cancelled ids has status CANCELLED and error message "Service
shutdown". -/
theorem cancel_all_cancels (now : Nat) :
    ∀ (ids : List String) (jobs : List Job) (j : Job),
      j ∈ cancel_all now ids jobs → j.job_id ∈ ids →
      j.status = .cancelled ∧ j.error_message = some "Service shutdown" := by
  intro ids
  induction ids with
  | nil => intro jobs j _ hin; cases hin
  | cons id rest ih =>
      intro jobs j h hin
      by_cases hr : j.job_id ∈ rest
      · exact ih _ j h hr
      · have hid : j.job_id = id := by
          rcases List.mem_cons.mp hin with h1 | h2
          · exact h1
          · exact absurd h2 hr
        have h2 := cancel_all_mem_of_unaffected now rest _ j h hr
        obtain ⟨x, hx, hfx⟩ := mem_runUpdate h2
        by_cases hxid : x.job_id = id
        · rw [hfx, if_pos hxid]
          exact ⟨rfl, rfl⟩
        · exfalso
          apply hxid
          rw [hfx, if_neg hxid] at hid
          exact hid

/-- C4 amended: `shutdown` does not stop admission — workers finishing
during the wait re-run the dispatch loop, so the jobs started during the
wait form an initial segment (possibly non-empty) of the queue at
shutdown time.  After the wait, exactly the remaining suffix of the
queue is cancelled and removed: the queue ends empty, the returned count
is the number of those never-started jobs, and in the job store each of
them is transitioned to CANCELLED with error message "Service
shutdown". -/
theorem C4_shutdown_cancels_remaining (p : BackgroundTaskManager)
    (finishes : Nat) :
    (∃ m, (shutdown p finishes).2.1 = p.task_queue.take m ∧
      (shutdown p finishes).2.2.2 = p.task_queue.drop m ∧
      (shutdown p finishes).2.2.1 = (p.task_queue.drop m).length ∧
      (shutdown p finishes).1.task_queue = []) ∧
    (∀ (now : Nat) (jobs : List Job) (j : Job),
      j ∈ cancel_all now (shutdown p finishes).2.2.2 jobs →
      j.job_id ∈ (shutdown p finishes).2.2.2 →
      j.status = .cancelled ∧ j.error_message = some "Service shutdown") := by
  constructor
  · obtain ⟨m, hs, hq⟩ := shutdown_wait_take_drop finishes p
    exact ⟨m, by simp [shutdown, hs], by simp [shutdown, hq],
      by simp [shutdown, hq], by simp [shutdown]⟩
  · intro now jobs j hmem hin
    exact cancel_all_cancels now _ jobs j hmem hin

/-- A concrete pending job with id "job-2", used for C4's witness. -/
def jobB : Job :=
  { job_id := "job-2", status := .pending, created_at := 50, updated_at := 50 }

/-- Witness for C4 at a concrete input: a full one-worker pool with
"job-2" queued and no worker finishing within the timeout; the job is
cancelled with the shutdown message. -/
theorem C4_shutdown_cancels_remaining_witness :
    (shutdown ⟨1, 1, ["job-2"]⟩ 0).2.2.2 = ["job-2"] ∧
    (applyUpdates jobB .cancelled 60 false none (some "Service shutdown")
        none).status = .cancelled ∧
    (applyUpdates jobB .cancelled 60 false none (some "Service shutdown")
        none).error_message = some "Service shutdown" := by
  have hids : (shutdown ⟨1, 1, ["job-2"]⟩ 0).2.2.2 = ["job-2"] := rfl
  have hmem : applyUpdates jobB .cancelled 60 false none
      (some "Service shutdown") none ∈
      cancel_all 60 (shutdown ⟨1, 1, ["job-2"]⟩ 0).2.2.2 [jobB] := by
    rw [hids]
    simp [cancel_all, runUpdate, jobB]
  have hin : (applyUpdates jobB .cancelled 60 false none
      (some "Service shutdown") none).job_id ∈
      (shutdown ⟨1, 1, ["job-2"]⟩ 0).2.2.2 := by
    rw [hids, applyUpdates_job_id]
    simp [jobB]
  have := (C4_shutdown_cancels_remaining ⟨1, 1, ["job-2"]⟩ 0).2 60 [jobB] _
    hmem hin
  exact ⟨hids, this.1, this.2⟩

/-- An event observed by the pool: a submission or a worker finishing. -/
inductive PoolEvent
  | submit (job_id : String)
  | finish
deriving DecidableEq, Repr

/-- Effect of one event on the pool state.  Check-and-increment in
`_process_queue` and the decrement in `_worker` both run under
`worker_lock`, so each event is atomic. -/
def poolStep (p : BackgroundTaskManager) : PoolEvent → BackgroundTaskManager
  | .submit job_id => (submit p job_id).1
  | .finish => (worker_finish p).1

/-- A pool run: the events applied in order. -/
def poolRun (p : BackgroundTaskManager) :
    List PoolEvent → BackgroundTaskManager
  | [] => p
  | e :: es => poolRun (poolStep p e) es

/-- `process_queue` preserves `active_workers ≤ max_workers` and never
changes `max_workers`. -/
theorem process_queue_bound (p : BackgroundTaskManager)
    (h : p.active_workers ≤ p.max_workers) :
    (process_queue p).1.active_workers ≤ p.max_workers ∧
    (process_queue p).1.max_workers = p.max_workers := by
  rw [process_queue]
  by_cases hfull : p.max_workers ≤ p.active_workers
  · simp [hfull, h]
  · cases htq : p.task_queue with
    | nil => simp [hfull, h]
    | cons t rest => simp [hfull, htq]; omega

/-- C10: along every sequence of submit/finish events from a state
satisfying `active_workers ≤ max_workers`, the bound is preserved and
`max_workers` never changes; moreover `_process_queue` starts a worker
only when `active_workers` is strictly below `max_workers`, and a
finishing worker performs its single decrement before re-running the
dispatch check. -/
theorem C10_active_workers_bounded (p : BackgroundTaskManager)
    (es : List PoolEvent) (h : p.active_workers ≤ p.max_workers) :
    ((poolRun p es).active_workers ≤ p.max_workers ∧
      (poolRun p es).max_workers = p.max_workers) ∧
    (∀ q : BackgroundTaskManager, (process_queue q).2.isSome →
      q.active_workers < q.max_workers) ∧
    (∀ q : BackgroundTaskManager, worker_finish q =
      process_queue { q with active_workers := q.active_workers - 1 }) := by
  refine ⟨?_, ?_, fun q => rfl⟩
  · induction es generalizing p with
    | nil => exact ⟨h, rfl⟩
    | cons e es ih =>
        have hstep : (poolStep p e).active_workers ≤ p.max_workers ∧
            (poolStep p e).max_workers = p.max_workers := by
          cases e with
          | submit job_id =>
              have := process_queue_bound
                { p with task_queue := p.task_queue ++ [job_id] } h
              simpa [poolStep, submit] using this
          | finish =>
              have hdec : ({ p with active_workers := p.active_workers - 1 } :
                  BackgroundTaskManager).active_workers ≤ p.max_workers := by
                simp; omega
              have := process_queue_bound
                { p with active_workers := p.active_workers - 1 } hdec
              simpa [poolStep, worker_finish] using this
        have := ih (poolStep p e) (hstep.2 ▸ hstep.1)
        rw [poolRun]
        exact ⟨hstep.2 ▸ this.1, hstep.2 ▸ this.2⟩
  · intro q hq
    rw [process_queue] at hq
    by_cases hfull : q.max_workers ≤ q.active_workers
    · simp [hfull] at hq
    · omega

/-- Witness for C10: a pool with two slots, three submissions and one
finish never exceeds the bound. -/
theorem C10_active_workers_bounded_witness :
    (poolRun ⟨2, 0, []⟩
        [.submit "a", .submit "b", .submit "c", .finish]).active_workers ≤ 2 ∧
    (poolRun ⟨2, 0, []⟩
        [.submit "a", .submit "b", .submit "c", .finish]).max_workers = 2 :=
  (C10_active_workers_bounded ⟨2, 0, []⟩
    [.submit "a", .submit "b", .submit "c", .finish] (by decide)).1

/-- Whether one maintenance step of the cleanup sweep raises an
exception when it runs. -/
inductive StepOutcome
  | success
  | failure
deriving DecidableEq, Repr

/-- What one iteration of `CleanupScheduler._run` (lines 51-67) did:
which of the three maintenance steps were attempted, and whether an
exception escaped the iteration. -/
structure SweepTrace where
  ran_jobs : Bool
  ran_buckets : Bool
  ran_temp : Bool
  escaped : Bool
deriving DecidableEq, Repr

/-- One iteration of `CleanupScheduler._run` with a rate limiter
configured: job cleanup, bucket cleanup and temp-file cleanup run
sequentially inside a single `try` block; the `except Exception` clause
catches whatever any step raises (so nothing escapes and the loop goes
on to the next sweep), but it sits outside all three steps, so the steps
after a raising one are not reached in that iteration. -/
def run_sweep (jobs_step buckets_step temp_step : StepOutcome) : SweepTrace :=
  match jobs_step with
  | .failure => ⟨true, false, false, false⟩
  | .success =>
      match buckets_step with
      | .failure => ⟨true, true, false, false⟩
      | .success =>
          match temp_step with
          | .failure => ⟨true, true, true, false⟩
          | .success => ⟨true, true, true, false⟩

/-- C5 counterexample: when the job-deletion step raises, the
rate-limiter bucket cleanup and the temp-file cleanup of that same sweep
do not run — the single try/except wraps all three steps, so the
exception skips the rest of the iteration. -/
theorem C5_counterexample :
    run_sweep .failure .success .success =
      ⟨true, false, false, false⟩ := rfl

/-- C5 amended: a failure in any step is caught — it never escapes the
iteration, so the next sweep still runs all steps — but within the same
sweep the steps after the failing one are skipped: bucket cleanup runs
iff job deletion succeeded, and temp-file cleanup runs iff both earlier
steps succeeded. -/
theorem C5_sweep_failure_skips_rest (s1 s2 s3 : StepOutcome) :
    (run_sweep s1 s2 s3).escaped = false ∧
    (run_sweep s1 s2 s3).ran_jobs = true ∧
    ((run_sweep s1 s2 s3).ran_buckets = true ↔ s1 = .success) ∧
    ((run_sweep s1 s2 s3).ran_temp = true ↔
      (s1 = .success ∧ s2 = .success)) := by
  cases s1 <;> cases s2 <;> cases s3 <;> decide

/-- Witness for C5's amended theorem at a concrete sweep in which the
job-deletion step raises and the other two steps would succeed. -/
theorem C5_sweep_failure_skips_rest_witness :
    (run_sweep .failure .success .success).escaped = false ∧
    (run_sweep .failure .success .success).ran_jobs = true ∧
    ((run_sweep .failure .success .success).ran_buckets = true ↔
      StepOutcome.failure = .success) ∧
    ((run_sweep .failure .success .success).ran_temp = true ↔
      (StepOutcome.failure = .success ∧ StepOutcome.success = .success)) :=
  C5_sweep_failure_skips_rest .failure .success .success

/-- Lookup after dict assignment finds the assigned value. -/
theorem alistGet_alistSet {β : Type} (m : List (String × β)) (k : String)
    (v : β) : alistGet (alistSet m k v) k = some v := by
  induction m with
  | nil => simp [alistSet, alistGet]
  | cons a rest ih =>
      by_cases h : a.1 = k
      · simp [alistSet, alistGet, h]
      · simp [alistSet, alistGet, h, ih]

/-- Lookup after dict deletion finds nothing. -/
theorem alistGet_alistErase {β : Type} (m : List (String × β)) (k : String) :
    alistGet (alistErase m k) k = none := by
  induction m with
  | nil => simp [alistErase, alistGet]
  | cons a rest ih =>
      by_cases h : a.1 = k
      · simp [alistErase, h, ih]
      · simp [alistErase, alistGet, h, ih]

/-- Two-tier TTL cache (`cache_manager.py`, `CacheManager`): the memory
tier and the file tier each map a key to (value, stored-at timestamp);
`α` is the cached value type. -/
structure CacheManager (α : Type) where
  ttl : Nat
  memory_cache : List (String × α × Nat)
  cache_files : List (String × α × Nat)

/-- File-tier half of `CacheManager.get` (lines 41-56): a fresh file
entry is backfilled into the memory tier — keeping its original
timestamp — and returned; an expired file entry is deleted and the call
misses.  The corrupted-file branch (json errors) is not modelled. -/
def CacheManager.getFile {α : Type} (c : CacheManager α) (k : String)
    (now : Nat) : Option α × CacheManager α :=
  match alistGet c.cache_files k with
  | some (v, ts) =>
      if now - ts < c.ttl then
        (some v, { c with memory_cache := alistSet c.memory_cache k (v, ts) })
      else
        (none, { c with cache_files := alistErase c.cache_files k })
  | none => (none, c)

/-- `CacheManager.get` (lines 28-58): a fresh memory entry is returned;
an expired one is deleted and the file tier is consulted. -/
def CacheManager.get {α : Type} (c : CacheManager α) (k : String)
    (now : Nat) : Option α × CacheManager α :=
  match alistGet c.memory_cache k with
  | some (v, ts) =>
      if now - ts < c.ttl then (some v, c)
      else
        CacheManager.getFile
          { c with memory_cache := alistErase c.memory_cache k } k now
  | none => CacheManager.getFile c k now

/-- `CacheManager.set` (lines 60-75): write (value, now) to both tiers.
The file write is modelled as succeeding; an IOError there would leave
only the memory tier, which can only make later misses earlier. -/
def CacheManager.set {α : Type} (c : CacheManager α) (k : String) (v : α)
    (now : Nat) : CacheManager α :=
  { c with
    memory_cache := alistSet c.memory_cache k (v, now)
    cache_files := alistSet c.cache_files k (v, now) }

/-- C9: Set followed by Get before the TTL elapses returns the stored
value; every Get at or after stored_at + ttl misses (both tiers carry
the Set's timestamp, so both expire together and the expired entries are
deleted), and every later Get of the key without an intervening Set also
misses — no resurrection from either tier. -/
theorem C9_cache_roundtrip_expiry {α : Type} (c : CacheManager α)
    (k : String) (v : α) (t0 t1 t2 : Nat)
    (hfresh : t1 - t0 < c.ttl) (hexp : t0 + c.ttl ≤ t2) :
    ((c.set k v t0).get k t1).1 = some v ∧
    ((c.set k v t0).get k t2).1 = none ∧
    ∀ t3, (((c.set k v t0).get k t2).2.get k t3).1 = none := by
  have hnot : ¬ (t2 - t0 < c.ttl) := by omega
  refine ⟨?_, ?_, ?_⟩
  · simp [CacheManager.get, CacheManager.set, alistGet_alistSet, hfresh]
  · simp [CacheManager.get, CacheManager.getFile, CacheManager.set,
      alistGet_alistSet, hnot]
  · intro t3
    simp [CacheManager.get, CacheManager.getFile, CacheManager.set,
      alistGet_alistSet, alistGet_alistErase, hnot]

/-- Witness for C9 with a 10-second TTL: set at 0, a hit at 3, a miss at
10 and a permanent miss afterwards (shown at 11). -/
theorem C9_cache_roundtrip_expiry_witness :
    ((CacheManager.set (⟨10, [], []⟩ : CacheManager Nat) "k" 5 0).get
        "k" 3).1 = some 5 ∧
    ((CacheManager.set (⟨10, [], []⟩ : CacheManager Nat) "k" 5 0).get
        "k" 10).1 = none ∧
    (((CacheManager.set (⟨10, [], []⟩ : CacheManager Nat) "k" 5 0).get
        "k" 10).2.get "k" 11).1 = none := by
  obtain ⟨h1, h2, h3⟩ := C9_cache_roundtrip_expiry
    (⟨10, [], []⟩ : CacheManager Nat) "k" 5 0 3 10 (by decide) (by decide)
  exact ⟨h1, h2, h3 11⟩

end NaturalSpeech
